import Mathlib

/-!
Shallow embedding of the fluvio wire-protocol decode/encode core
(`crates/fluvio-protocol/src/core/decoder.rs`) and of the tagged-union
dispatch for `ObjectCreateRequest`
(`crates/fluvio-sc-schema/src/objects/create.rs`).

A byte buffer is a `List Byte` (`Byte := Fin 256`); a decoder consumes a
prefix of the buffer and returns the decoded value together with the
remaining bytes, or an error.  The Rust trait method
`decode(&mut self, src, version)` mutates the target in place, so it is
embedded as a function taking the current target value and returning the
updated one.  Error message strings follow the source texts, with
apostrophes elided.
-/

/-- Protocol version (`pub type Version = i16` in the source). -/
abbrev Version := Int

/-- One octet of the wire format. -/
abbrev Byte := Fin 256

/-- The `std::io::ErrorKind` values used by the decoder. -/
inductive ErrKind where
  | unexpectedEof
  | invalidData
  deriving DecidableEq, Repr

/-- Embedding of `std::io::Error`: a kind plus a message. -/
structure ProtoError where
  kind : ErrKind
  msg : String
  deriving DecidableEq, Repr

/-- Result of one decode step: the value and the remaining bytes, or an error. -/
abbrev DecRes (α : Type) := Except ProtoError (α × List Byte)

instance {ε α : Type} [DecidableEq ε] [DecidableEq α] : DecidableEq (Except ε α) := fun x y =>
  match x, y with
  | .error a, .error b =>
    if h : a = b then .isTrue (by rw [h]) else .isFalse (by intro he; cases he; exact h rfl)
  | .ok a, .ok b =>
    if h : a = b then .isTrue (by rw [h]) else .isFalse (by intro he; cases he; exact h rfl)
  | .error _, .ok _ => .isFalse (by intro h; cases h)
  | .ok _, .error _ => .isFalse (by intro h; cases h)

/-- Big-endian interpretation of a byte list as an unsigned number. -/
def beNat : List Byte → Nat
  | [] => 0
  | b :: rest => b.val * 256 ^ rest.length + beNat rest

/-- Reinterpret an unsigned `w`-bit value as a two-complement signed integer. -/
def toSigned (w : Nat) (v : Nat) : Int :=
  if v < 2 ^ (w - 1) then (v : Int) else (v : Int) - 2 ^ w

/-- A `Decoder + Default` implementation: the default value together with the
in-place `decode` method (current target value, buffer, version). -/
structure DecoderImpl (α : Type) where
  dflt : α
  decode : α → List Byte → Version → DecRes α

/-- The trait-provided `decode_from`: decode starting from the default value. -/
def decodeFrom (D : DecoderImpl α) (src : List Byte) (version : Version) : DecRes α :=
  D.decode D.dflt src version

/-- Source `impl Decoder for bool` (decoder.rs:130): one byte, `0 => false`,
`1 => true`, anything else is invalid data. -/
def boolDecode (_self : Bool) (src : List Byte) (_version : Version) : DecRes Bool :=
  match src with
  | [] => .error ⟨.unexpectedEof, "not enough buf for bool"⟩
  | b :: rest =>
    match b.val with
    | 0 => .ok (false, rest)
    | 1 => .ok (true, rest)
    | _ => .error ⟨.invalidData, "not valid bool value"⟩

def boolDecoder : DecoderImpl Bool := ⟨false, boolDecode⟩

def boolDecodeFrom (src : List Byte) (version : Version) : DecRes Bool :=
  decodeFrom boolDecoder src version

/-- Source `impl Decoder for u8` (decoder.rs:172). -/
def u8Decode (_self : Nat) (src : List Byte) (_version : Version) : DecRes Nat :=
  match src with
  | b :: rest => .ok (b.val, rest)
  | _ => .error ⟨.unexpectedEof, "not enough buf for u8"⟩

def u8Decoder : DecoderImpl Nat := ⟨0, u8Decode⟩

def u8DecodeFrom (src : List Byte) (version : Version) : DecRes Nat :=
  decodeFrom u8Decoder src version

/-- Source `impl Decoder for i8` (decoder.rs:155). -/
def i8Decode (_self : Int) (src : List Byte) (_version : Version) : DecRes Int :=
  match src with
  | b :: rest => .ok (toSigned 8 b.val, rest)
  | _ => .error ⟨.unexpectedEof, "not enough buf for i8"⟩

def i8Decoder : DecoderImpl Int := ⟨0, i8Decode⟩

def i8DecodeFrom (src : List Byte) (version : Version) : DecRes Int :=
  decodeFrom i8Decoder src version

/-- Source `impl Decoder for u16` (decoder.rs:203): two bytes, big-endian. -/
def u16Decode (_self : Nat) (src : List Byte) (_version : Version) : DecRes Nat :=
  match src with
  | b0 :: b1 :: rest => .ok (b0.val * 256 + b1.val, rest)
  | _ => .error ⟨.unexpectedEof, "cant read u16"⟩

def u16Decoder : DecoderImpl Nat := ⟨0, u16Decode⟩

def u16DecodeFrom (src : List Byte) (version : Version) : DecRes Nat :=
  decodeFrom u16Decoder src version

/-- Source `impl Decoder for i16` (decoder.rs:189): two bytes, big-endian, signed. -/
def i16Decode (_self : Int) (src : List Byte) (_version : Version) : DecRes Int :=
  match src with
  | b0 :: b1 :: rest => .ok (toSigned 16 (b0.val * 256 + b1.val), rest)
  | _ => .error ⟨.unexpectedEof, "cant read i16"⟩

def i16Decoder : DecoderImpl Int := ⟨0, i16Decode⟩

def i16DecodeFrom (src : List Byte) (version : Version) : DecRes Int :=
  decodeFrom i16Decoder src version

/-- Source `impl Decoder for u32` (decoder.rs:232): four bytes, big-endian. -/
def u32Decode (_self : Nat) (src : List Byte) (_version : Version) : DecRes Nat :=
  match src with
  | b0 :: b1 :: b2 :: b3 :: rest =>
    .ok (((b0.val * 256 + b1.val) * 256 + b2.val) * 256 + b3.val, rest)
  | _ => .error ⟨.unexpectedEof, "cant read u32"⟩

def u32Decoder : DecoderImpl Nat := ⟨0, u32Decode⟩

def u32DecodeFrom (src : List Byte) (version : Version) : DecRes Nat :=
  decodeFrom u32Decoder src version

/-- Source `impl Decoder for i32` (decoder.rs:217): four bytes, big-endian, signed. -/
def i32Decode (_self : Int) (src : List Byte) (_version : Version) : DecRes Int :=
  match src with
  | b0 :: b1 :: b2 :: b3 :: rest =>
    .ok (toSigned 32 (((b0.val * 256 + b1.val) * 256 + b2.val) * 256 + b3.val), rest)
  | _ => .error ⟨.unexpectedEof, "cant read i32"⟩

def i32Decoder : DecoderImpl Int := ⟨0, i32Decode⟩

def i32DecodeFrom (src : List Byte) (version : Version) : DecRes Int :=
  decodeFrom i32Decoder src version

/-- Source `impl Decoder for u64` (decoder.rs:247): eight bytes, big-endian. -/
def u64Decode (_self : Nat) (src : List Byte) (_version : Version) : DecRes Nat :=
  match src with
  | b0 :: b1 :: b2 :: b3 :: b4 :: b5 :: b6 :: b7 :: rest =>
    .ok ((((((((b0.val * 256 + b1.val) * 256 + b2.val) * 256 + b3.val) * 256
        + b4.val) * 256 + b5.val) * 256 + b6.val) * 256 + b7.val), rest)
  | _ => .error ⟨.unexpectedEof, "cant read u64"⟩

def u64Decoder : DecoderImpl Nat := ⟨0, u64Decode⟩

def u64DecodeFrom (src : List Byte) (version : Version) : DecRes Nat :=
  decodeFrom u64Decoder src version

/-- Source `impl Decoder for i64` (decoder.rs:262): eight bytes, big-endian, signed. -/
def i64Decode (_self : Int) (src : List Byte) (_version : Version) : DecRes Int :=
  match src with
  | b0 :: b1 :: b2 :: b3 :: b4 :: b5 :: b6 :: b7 :: rest =>
    .ok (toSigned 64 (((((((b0.val * 256 + b1.val) * 256 + b2.val) * 256 + b3.val) * 256
        + b4.val) * 256 + b5.val) * 256 + b6.val) * 256 + b7.val), rest)
  | _ => .error ⟨.unexpectedEof, "cant read i64"⟩

def i64Decoder : DecoderImpl Int := ⟨0, i64Decode⟩

def i64DecodeFrom (src : List Byte) (version : Version) : DecRes Int :=
  decodeFrom i64Decoder src version

/-- One byte is a UTF-8 continuation byte (bit pattern 10xxxxxx). -/
def utf8Cont (b : Byte) : Bool := 0x80 ≤ b.val && b.val < 0xC0

/-- UTF-8 validity of a byte sequence, as enforced by the text-decoding step
(`read_to_string`): rejects continuation bytes out of place, overlong froms,
surrogates, values above U+10FFFF, and truncated sequences. -/
def validUtf8 : List Byte → Bool
  | [] => true
  | b :: rest =>
    if b.val < 0x80 then validUtf8 rest
    else if b.val < 0xC2 then false
    else if b.val < 0xE0 then
      match rest with
      | b1 :: rest2 => utf8Cont b1 && validUtf8 rest2
      | [] => false
    else if b.val < 0xF0 then
      match rest with
      | b1 :: b2 :: rest2 =>
        (if b.val = 0xE0 then decide (0xA0 ≤ b1.val) && decide (b1.val < 0xC0)
         else if b.val = 0xED then decide (0x80 ≤ b1.val) && decide (b1.val < 0xA0)
         else utf8Cont b1) && utf8Cont b2 && validUtf8 rest2
      | _ => false
    else if b.val < 0xF5 then
      match rest with
      | b1 :: b2 :: b3 :: rest2 =>
        (if b.val = 0xF0 then decide (0x90 ≤ b1.val) && decide (b1.val < 0xC0)
         else if b.val = 0xF4 then decide (0x80 ≤ b1.val) && decide (b1.val < 0x90)
         else utf8Cont b1) && utf8Cont b2 && utf8Cont b3 && validUtf8 rest2
      | _ => false
    else false

/-- Source `decode_string` (decoder.rs:287): take `len` bytes and read them as UTF-8
text; a short read is an error.  The text-decoding step surfaces an
invalid-UTF-8 error before the length comparison, because `read_to_string`
returns it in place of a byte count.  A decoded string is represented by its
UTF-8 bytes. -/
def decode_string (len : Int) (src : List Byte) : DecRes (List Byte) :=
  let taken := src.take len.toNat
  if validUtf8 taken = false then
    .error ⟨.invalidData, "stream did not contain valid UTF-8"⟩
  else if taken.length ≠ len.toNat then
    .error ⟨.unexpectedEof, "not enough string"⟩
  else .ok (taken, src.drop len.toNat)

/-- Source `impl Decoder for String` (decoder.rs:300): 16-bit signed length, then
`len` bytes of UTF-8; `len <= 0` leaves the target untouched. -/
def stringDecode (self : List Byte) (src : List Byte) (_version : Version) : DecRes (List Byte) :=
  match src with
  | b0 :: b1 :: rest =>
    let len := toSigned 16 (b0.val * 256 + b1.val)
    if len ≤ 0 then .ok (self, rest)
    else decode_string len rest
  | _ => .error ⟨.unexpectedEof, "cant read string length"⟩

def stringDecoder : DecoderImpl (List Byte) := ⟨[], stringDecode⟩

def stringDecodeFrom (src : List Byte) (version : Version) : DecRes (List Byte) :=
  decodeFrom stringDecoder src version

/-- Source `decode_vec` (decoder.rs:62): decode `len` elements in order, pushing each
onto the accumulating vector; the first failure aborts the loop. -/
def decode_vec (D : DecoderImpl β) (len : Nat) (item : List β) (src : List Byte)
    (version : Version) : DecRes (List β) :=
  match len with
  | 0 => .ok (item, src)
  | n + 1 =>
    match decodeFrom D src version with
    | .error e => .error e
    | .ok (value, src1) => decode_vec D n (item ++ [value]) src1 version

/-- Source `impl Decoder for Vec M` (decoder.rs:39): 32-bit signed count, a count
below 1 is skipped (the target keeps its current contents), otherwise
`decode_vec` appends that many elements. -/
def vecDecode (D : DecoderImpl β) (self : List β) (src : List Byte)
    (version : Version) : DecRes (List β) :=
  match i32DecodeFrom src version with
  | .error e => .error e
  | .ok (len, src1) =>
    if len < 1 then .ok (self, src1)
    else decode_vec D len.toNat self src1 version

def vecDecoder (D : DecoderImpl β) : DecoderImpl (List β) := ⟨[], vecDecode D⟩

/-- Source `impl Decoder for Option M` (decoder.rs:75): a boolean presence flag, then
the payload when present; the previous target value is overwritten wholesale. -/
def optionDecode (D : DecoderImpl α) (_self : Option α) (src : List Byte)
    (version : Version) : DecRes (Option α) :=
  match boolDecodeFrom src version with
  | .error e => .error e
  | .ok (flag, src1) =>
    if flag then
      match decodeFrom D src1 version with
      | .error e => .error e
      | .ok (value, src2) => .ok (some value, src2)
    else .ok (none, src1)

def optionDecoder (D : DecoderImpl α) : DecoderImpl (Option α) := ⟨none, optionDecode D⟩

/-- Ordered insert with overwrite on an equal key: the embedding of
`BTreeMap::insert` on a key-sorted association list. -/
def btreeInsert [LinearOrder κ] (k : κ) (v : ω) : List (κ × ω) → List (κ × ω)
  | [] => [(k, v)]
  | (k2, v2) :: rest =>
    if k < k2 then (k, v) :: (k2, v2) :: rest
    else if k = k2 then (k, v) :: rest
    else (k2, v2) :: btreeInsert k v rest

/-- The pair-decoding loop of `impl Decoder for BTreeMap` (decoder.rs:119):
decode a key then a value, insert, repeat. -/
def mapDecodeLoop [LinearOrder κ] (DK : DecoderImpl κ) (DV : DecoderImpl ω) (n : Nat)
    (map : List (κ × ω)) (src : List Byte) (version : Version) : DecRes (List (κ × ω)) :=
  match n with
  | 0 => .ok (map, src)
  | m + 1 =>
    match decodeFrom DK src version with
    | .error e => .error e
    | .ok (key, s1) =>
      match decodeFrom DV s1 version with
      | .error e => .error e
      | .ok (value, s2) => mapDecodeLoop DK DV m (btreeInsert key value map) s2 version

/-- Source `impl Decoder for BTreeMap K V` (decoder.rs:107): 16-bit unsigned count,
then that many key/value pairs built into a fresh map which replaces the
target wholesale. -/
def mapDecode [LinearOrder κ] (DK : DecoderImpl κ) (DV : DecoderImpl ω)
    (_self : List (κ × ω)) (src : List Byte) (version : Version) : DecRes (List (κ × ω)) :=
  match u16DecodeFrom src version with
  | .error e => .error e
  | .ok (n, s1) => mapDecodeLoop DK DV n [] s1 version

def mapDecoder [LinearOrder κ] (DK : DecoderImpl κ) (DV : DecoderImpl ω) :
    DecoderImpl (List (κ × ω)) := ⟨[], mapDecode DK DV⟩

/-- Modelled from the spec: the varint codec
(`crates/fluvio-protocol/src/core/varint.rs`, `varint_decode`) is not under
src/.  Spec section 4.2 describes a standard continuation-bit scheme over
7-bit groups, least-significant group first, failing with insufficient input
if the bytes run out before a terminating (high-bit-clear) byte. -/
def varintLoop (shift : Nat) (acc : Nat) : List Byte → Except ProtoError (Nat × List Byte)
  | [] => .error ⟨.unexpectedEof, "varint needs more bytes"⟩
  | b :: rest =>
    let acc2 := acc + b.val % 128 * 2 ^ shift
    if b.val < 128 then .ok (acc2, rest) else varintLoop (shift + 7) acc2 rest

/-- Modelled from the spec: zig-zag sign mapping of the varint codec (spec
sections 4.2 and 6): even values map to `n / 2`, odd values to `-(n / 2) - 1`. -/
def zigzagDecode (u : Nat) : Int :=
  if u % 2 = 0 then ((u / 2 : Nat) : Int) else -((u / 2 : Nat) : Int) - 1

/-- Modelled from the spec: `varint_decode` combining the continuation-group
loop with the zig-zag mapping. -/
def varint_decode (src : List Byte) : Except ProtoError (Int × List Byte) :=
  match varintLoop 0 0 src with
  | .error e => .error e
  | .ok (u, rest) => .ok (zigzagDecode u, rest)

/-- Source `impl DecoderVarInt for i64` (decoder.rs:277). -/
def i64DecodeVarintFrom (src : List Byte) : Except ProtoError (Int × List Byte) :=
  varint_decode src

/-- Source `impl DecoderVarInt for Vec u8` (decoder.rs:322): varint length, then that
many raw bytes; a length below 1 yields the empty blob; a short take is a
truncation error. -/
def vecU8DecodeVarintFrom (src : List Byte) : Except ProtoError (List Byte × List Byte) :=
  match i64DecodeVarintFrom src with
  | .error e => .error e
  | .ok (len, src1) =>
    if len < 1 then .ok ([], src1)
    else
      let taken := src1.take len.toNat
      if taken.length ≠ len.toNat then
        .error ⟨.unexpectedEof,
          "varint: Vec u8, expecting " ++ toString len ++ " but received: "
            ++ toString taken.length⟩
      else .ok (taken, src1.drop len.toNat)

/-- Source `TestRecord` (decoder.rs:752): two int8 fields, the second gated on
version above 1. -/
structure TestRecord where
  value : Int
  value2 : Int
  deriving DecidableEq, Repr

/-- The derived `Default` of `TestRecord`. -/
def TestRecord.dflt : TestRecord := ⟨0, 0⟩

/-- Source `impl Decoder for TestRecord` (decoder.rs:758): always decode `value`;
decode `value2` only when `version > 1`, else leave it 0. -/
def TestRecord.decode (_self : TestRecord) (src : List Byte) (version : Version) :
    DecRes TestRecord :=
  match i8DecodeFrom src 0 with
  | .error e => .error e
  | .ok (v1, s1) =>
    if version > 1 then
      match i8DecodeFrom s1 0 with
      | .error e => .error e
      | .ok (v2, s2) => .ok (⟨v1, v2⟩, s2)
    else .ok (⟨v1, 0⟩, s1)

def TestRecordDecoder : DecoderImpl TestRecord := ⟨TestRecord.dflt, TestRecord.decode⟩

/-- The trait-provided `decode_from` at `TestRecord`. -/
def TestRecord.decode_from (src : List Byte) (version : Version) : DecRes TestRecord :=
  decodeFrom TestRecordDecoder src version

/-- Modelled from the spec: `(0u8).write_size(version)`; the `Encoder`
implementation for `u8` (encoder.rs) is not under src/; spec section 4.1
fixes the size of every one-byte type at 1 regardless of version. -/
def u8WriteSize (_version : Version) : Nat := 1

/-- The byte with a given value (reduced mod 256, as a `u8` cast would). -/
def byteOfNat (v : Nat) : Byte := ⟨v % 256, Nat.mod_lt _ (by omega)⟩

/-- Modelled from the spec: `u8::encode` (encoder.rs) is not under src/; spec
section 6 lays a `uint8` out as one raw byte. -/
def u8Encode (v : Nat) (_version : Version) : List Byte := [byteOfNat v]

/-- The `Encoder`/`Decoder` interface of one variant spec (TopicSpec and the
rest), abstract here: its default value, `write_size`, `encode` (returning
the bytes appended to the destination) and `decode_from`. -/
structure PayloadCodec (α : Type) where
  dflt : α
  write_size : α → Version → Nat
  encode : α → Version → Except ProtoError (List Byte)
  decode_from : List Byte → Version → DecRes α

/-- The seven variant spec codecs of `ObjectCreateRequest` together with their
`CREATE_TYPE` discriminant bytes (the tag table lives outside src/, so the
tags are abstract values here). -/
structure CreateCtx (T1 T2 T3 T4 T5 T6 T7 : Type) where
  topic : PayloadCodec T1
  customSpu : PayloadCodec T2
  smartModule : PayloadCodec T3
  managedConnector : PayloadCodec T4
  spuGroup : PayloadCodec T5
  tableFormat : PayloadCodec T6
  derivedStream : PayloadCodec T7
  topicType : Nat
  customSpuType : Nat
  smartModuleType : Nat
  managedConnectorType : Nat
  spuGroupType : Nat
  tableFormatType : Nat
  derivedStreamType : Nat

/-- Source `ObjectCreateRequest` (create.rs:48): a closed tagged union over the seven
admin spec types. -/
inductive ObjectCreateRequest (T1 T2 T3 T4 T5 T6 T7 : Type) where
  | Topic : T1 → ObjectCreateRequest T1 T2 T3 T4 T5 T6 T7
  | CustomSpu : T2 → ObjectCreateRequest T1 T2 T3 T4 T5 T6 T7
  | SmartModule : T3 → ObjectCreateRequest T1 T2 T3 T4 T5 T6 T7
  | ManagedConnector : T4 → ObjectCreateRequest T1 T2 T3 T4 T5 T6 T7
  | SpuGroup : T5 → ObjectCreateRequest T1 T2 T3 T4 T5 T6 T7
  | TableFormat : T6 → ObjectCreateRequest T1 T2 T3 T4 T5 T6 T7
  | DerivedStream : T7 → ObjectCreateRequest T1 T2 T3 T4 T5 T6 T7

namespace ObjectCreateRequest

variable {T1 T2 T3 T4 T5 T6 T7 : Type}

/-- Source `ObjectCreateRequest::type_value` (create.rs:66): the `CREATE_TYPE` byte
of the active variant. -/
def type_value (ctx : CreateCtx T1 T2 T3 T4 T5 T6 T7) :
    ObjectCreateRequest T1 T2 T3 T4 T5 T6 T7 → Nat
  | .Topic _ => ctx.topicType
  | .CustomSpu _ => ctx.customSpuType
  | .SmartModule _ => ctx.smartModuleType
  | .ManagedConnector _ => ctx.managedConnectorType
  | .SpuGroup _ => ctx.spuGroupType
  | .TableFormat _ => ctx.tableFormatType
  | .DerivedStream _ => ctx.derivedStreamType

/-- The inner match of `write_size` (create.rs:84): the active variant's own
reported size. -/
def variant_write_size (ctx : CreateCtx T1 T2 T3 T4 T5 T6 T7)
    (r : ObjectCreateRequest T1 T2 T3 T4 T5 T6 T7) (version : Version) : Nat :=
  match r with
  | .Topic s => ctx.topic.write_size s version
  | .CustomSpu s => ctx.customSpu.write_size s version
  | .SmartModule s => ctx.smartModule.write_size s version
  | .ManagedConnector s => ctx.managedConnector.write_size s version
  | .SpuGroup s => ctx.spuGroup.write_size s version
  | .TableFormat s => ctx.tableFormat.write_size s version
  | .DerivedStream s => ctx.derivedStream.write_size s version

/-- Source `Encoder::write_size` for `ObjectCreateRequest` (create.rs:80): the tag
size plus the active variant's size. -/
def write_size (ctx : CreateCtx T1 T2 T3 T4 T5 T6 T7)
    (r : ObjectCreateRequest T1 T2 T3 T4 T5 T6 T7) (version : Version) : Nat :=
  let type_size := u8WriteSize version
  type_size + variant_write_size ctx r version

/-- The inner match of `encode` (create.rs:100): the active variant's own
encoding (the source lists ManagedConnector before SmartModule). -/
def variant_encode (ctx : CreateCtx T1 T2 T3 T4 T5 T6 T7)
    (r : ObjectCreateRequest T1 T2 T3 T4 T5 T6 T7) (version : Version) :
    Except ProtoError (List Byte) :=
  match r with
  | .Topic s => ctx.topic.encode s version
  | .CustomSpu s => ctx.customSpu.encode s version
  | .ManagedConnector s => ctx.managedConnector.encode s version
  | .SmartModule s => ctx.smartModule.encode s version
  | .SpuGroup s => ctx.spuGroup.encode s version
  | .TableFormat s => ctx.tableFormat.encode s version
  | .DerivedStream s => ctx.derivedStream.encode s version

/-- Source `Encoder::encode` for `ObjectCreateRequest` (create.rs:95): write the
`type_value` tag byte, then the active variant's encoding. -/
def encode (ctx : CreateCtx T1 T2 T3 T4 T5 T6 T7)
    (r : ObjectCreateRequest T1 T2 T3 T4 T5 T6 T7) (version : Version) :
    Except ProtoError (List Byte) :=
  match variant_encode ctx r version with
  | .error e => .error e
  | .ok payload => .ok (u8Encode (type_value ctx r) version ++ payload)

/-- Source `Decoder::decode` for `ObjectCreateRequest` (create.rs:117) started from
the default value: read the tag byte, dispatch on it in source order (Topic,
TableFormat, CustomSpu, SpuGroup, SmartModule, ManagedConnector,
DerivedStream), and fail with invalid data on any other tag. -/
def decode_from (ctx : CreateCtx T1 T2 T3 T4 T5 T6 T7) (src : List Byte)
    (version : Version) : DecRes (ObjectCreateRequest T1 T2 T3 T4 T5 T6 T7) :=
  match u8DecodeFrom src version with
  | .error e => .error e
  | .ok (typ, src1) =>
    if typ = ctx.topicType then
      match ctx.topic.decode_from src1 version with
      | .error e => .error e
      | .ok (s, rest) => .ok (.Topic s, rest)
    else if typ = ctx.tableFormatType then
      match ctx.tableFormat.decode_from src1 version with
      | .error e => .error e
      | .ok (s, rest) => .ok (.TableFormat s, rest)
    else if typ = ctx.customSpuType then
      match ctx.customSpu.decode_from src1 version with
      | .error e => .error e
      | .ok (s, rest) => .ok (.CustomSpu s, rest)
    else if typ = ctx.spuGroupType then
      match ctx.spuGroup.decode_from src1 version with
      | .error e => .error e
      | .ok (s, rest) => .ok (.SpuGroup s, rest)
    else if typ = ctx.smartModuleType then
      match ctx.smartModule.decode_from src1 version with
      | .error e => .error e
      | .ok (s, rest) => .ok (.SmartModule s, rest)
    else if typ = ctx.managedConnectorType then
      match ctx.managedConnector.decode_from src1 version with
      | .error e => .error e
      | .ok (s, rest) => .ok (.ManagedConnector s, rest)
    else if typ = ctx.derivedStreamType then
      match ctx.derivedStream.decode_from src1 version with
      | .error e => .error e
      | .ok (s, rest) => .ok (.DerivedStream s, rest)
    else .error ⟨.invalidData, "invalid create type " ++ toString typ⟩

end ObjectCreateRequest

/-- A trivial variant spec codec over `Unit`, used to instantiate the
tagged-union theorems concretely. -/
def unitCodec : PayloadCodec Unit where
  dflt := ()
  write_size _ _ := 0
  encode _ _ := .ok []
  decode_from src _ := .ok ((), src)

/-- A concrete `CreateCtx` with all payloads trivial and tags 0 through 6. -/
def unitCtx : CreateCtx Unit Unit Unit Unit Unit Unit Unit where
  topic := unitCodec
  customSpu := unitCodec
  smartModule := unitCodec
  managedConnector := unitCodec
  spuGroup := unitCodec
  tableFormat := unitCodec
  derivedStream := unitCodec
  topicType := 0
  customSpuType := 1
  smartModuleType := 2
  managedConnectorType := 3
  spuGroupType := 4
  tableFormatType := 5
  derivedStreamType := 6

/-- C1 (counterexample): decoding the varint-length-prefixed blob
`[0x06, 0x64, 0x6f, 0x67]` does not fail: the zig-zag varint `0x06` denotes
length 3, which the 3 payload bytes satisfy, so the decode succeeds. -/
theorem c1_counterexample :
    vecU8DecodeVarintFrom [0x06, 0x64, 0x6f, 0x67] = .ok ([0x64, 0x6f, 0x67], []) := rfl

/-- C1 (amended): the varint prefix `0x06` is zig-zag encoded and denotes
length 3, so decoding `[0x06, 0x64, 0x6f, 0x67]` succeeds with the 3-byte
blob `[0x64, 0x6f, 0x67]`; with only 2 payload bytes (`[0x06, 0x64, 0x6f]`)
the decode fails with a truncation (unexpected end of input) error. -/
theorem c1_amended :
    vecU8DecodeVarintFrom [0x06, 0x64, 0x6f, 0x67] = .ok ([0x64, 0x6f, 0x67], [])
    ∧ vecU8DecodeVarintFrom [0x06, 0x64, 0x6f] =
        .error ⟨.unexpectedEof, "varint: Vec u8, expecting 3 but received: 2"⟩ :=
  ⟨rfl, rfl⟩

/-- C4: for the two-int8 struct whose second field is gated at version 2,
decoding `[0x06]` under version 0 or 1 yields `(6, default)` with no byte
consumed for the gated field, and decoding `[0x06, 0x09]` under version 2
yields `(6, 9)`. -/
theorem c4_version_gated_decoding :
    TestRecord.decode_from [0x06] 0 = .ok (⟨6, 0⟩, [])
    ∧ TestRecord.decode_from [0x06] 1 = .ok (⟨6, 0⟩, [])
    ∧ TestRecord.decode_from [0x06, 0x09] 2 = .ok (⟨6, 9⟩, []) :=
  ⟨rfl, rfl, rfl⟩

/-- C7: boolean decode fails with truncation on an empty buffer, maps byte 0
to `false`, byte 1 to `true`, and fails with invalid data on every other
byte value. -/
theorem c7_bool_decode :
    (∀ version : Version,
      boolDecodeFrom [] version = .error ⟨.unexpectedEof, "not enough buf for bool"⟩)
    ∧ (∀ (rest : List Byte) (version : Version),
      boolDecodeFrom (0 :: rest) version = .ok (false, rest))
    ∧ (∀ (rest : List Byte) (version : Version),
      boolDecodeFrom (1 :: rest) version = .ok (true, rest))
    ∧ (∀ (b : Byte) (rest : List Byte) (version : Version), 2 ≤ b.val →
      boolDecodeFrom (b :: rest) version = .error ⟨.invalidData, "not valid bool value"⟩) := by
  refine ⟨fun _ => rfl, fun _ _ => rfl, fun _ _ => rfl, fun b rest version h => ?_⟩
  obtain ⟨k, hk⟩ := Nat.exists_eq_add_of_le h
  rw [Nat.add_comm] at hk
  simp only [boolDecodeFrom, decodeFrom, boolDecoder, boolDecode, hk]

/-- C7 (witness): the byte `0x23` is rejected as invalid data. -/
theorem c7_witness :
    boolDecodeFrom [(0x23 : Byte)] 0 = .error ⟨.invalidData, "not valid bool value"⟩ :=
  c7_bool_decode.2.2.2 0x23 [] 0 (by decide)

/-- Big-endian value of one byte. -/
theorem beNat_one (b0 : Byte) : beNat [b0] = b0.val := by
  simp [beNat]

/-- Big-endian value of two bytes, in the nesting the decoder computes. -/
theorem beNat_two (b0 b1 : Byte) : beNat [b0, b1] = b0.val * 256 + b1.val := by
  simp only [beNat, List.length_cons, List.length_nil]
  ring

/-- Big-endian value of four bytes, in the nesting the decoder computes. -/
theorem beNat_four (b0 b1 b2 b3 : Byte) :
    beNat [b0, b1, b2, b3] = ((b0.val * 256 + b1.val) * 256 + b2.val) * 256 + b3.val := by
  simp only [beNat, List.length_cons, List.length_nil]
  ring

/-- Big-endian value of eight bytes, in the nesting the decoder computes. -/
theorem beNat_eight (b0 b1 b2 b3 b4 b5 b6 b7 : Byte) :
    beNat [b0, b1, b2, b3, b4, b5, b6, b7] =
      (((((((b0.val * 256 + b1.val) * 256 + b2.val) * 256 + b3.val) * 256
        + b4.val) * 256 + b5.val) * 256 + b6.val) * 256 + b7.val) := by
  simp only [beNat, List.length_cons, List.length_nil]
  ring

theorem i8_decode_short (src : List Byte) (version : Version) (h : src.length < 1) :
    i8DecodeFrom src version = .error ⟨.unexpectedEof, "not enough buf for i8"⟩ := by
  rcases src with _ | ⟨b0, rest⟩
  · rfl
  · simp at h

theorem i8_decode_be (src : List Byte) (version : Version) (h : 1 ≤ src.length) :
    i8DecodeFrom src version = .ok (toSigned 8 (beNat (src.take 1)), src.drop 1) := by
  rcases src with _ | ⟨b0, rest⟩
  · simp at h
  · simp only [List.take_succ_cons, List.take_zero, List.drop_succ_cons, List.drop_zero,
      beNat_one]
    rfl

theorem u8_decode_short (src : List Byte) (version : Version) (h : src.length < 1) :
    u8DecodeFrom src version = .error ⟨.unexpectedEof, "not enough buf for u8"⟩ := by
  rcases src with _ | ⟨b0, rest⟩
  · rfl
  · simp at h

theorem u8_decode_be (src : List Byte) (version : Version) (h : 1 ≤ src.length) :
    u8DecodeFrom src version = .ok (beNat (src.take 1), src.drop 1) := by
  rcases src with _ | ⟨b0, rest⟩
  · simp at h
  · simp only [List.take_succ_cons, List.take_zero, List.drop_succ_cons, List.drop_zero,
      beNat_one]
    rfl

theorem i16_decode_short (src : List Byte) (version : Version) (h : src.length < 2) :
    i16DecodeFrom src version = .error ⟨.unexpectedEof, "cant read i16"⟩ := by
  rcases src with _ | ⟨b0, _ | ⟨b1, rest⟩⟩
  · rfl
  · rfl
  · simp only [List.length_cons] at h; omega

theorem i16_decode_be (src : List Byte) (version : Version) (h : 2 ≤ src.length) :
    i16DecodeFrom src version = .ok (toSigned 16 (beNat (src.take 2)), src.drop 2) := by
  rcases src with _ | ⟨b0, _ | ⟨b1, rest⟩⟩
  · simp at h
  · simp at h
  · simp only [List.take_succ_cons, List.take_zero, List.drop_succ_cons, List.drop_zero,
      beNat_two]
    rfl

theorem u16_decode_short (src : List Byte) (version : Version) (h : src.length < 2) :
    u16DecodeFrom src version = .error ⟨.unexpectedEof, "cant read u16"⟩ := by
  rcases src with _ | ⟨b0, _ | ⟨b1, rest⟩⟩
  · rfl
  · rfl
  · simp only [List.length_cons] at h; omega

theorem u16_decode_be (src : List Byte) (version : Version) (h : 2 ≤ src.length) :
    u16DecodeFrom src version = .ok (beNat (src.take 2), src.drop 2) := by
  rcases src with _ | ⟨b0, _ | ⟨b1, rest⟩⟩
  · simp at h
  · simp at h
  · simp only [List.take_succ_cons, List.take_zero, List.drop_succ_cons, List.drop_zero,
      beNat_two]
    rfl

theorem i32_decode_short (src : List Byte) (version : Version) (h : src.length < 4) :
    i32DecodeFrom src version = .error ⟨.unexpectedEof, "cant read i32"⟩ := by
  rcases src with _ | ⟨b0, _ | ⟨b1, _ | ⟨b2, _ | ⟨b3, rest⟩⟩⟩⟩
  · rfl
  · rfl
  · rfl
  · rfl
  · simp only [List.length_cons] at h; omega

theorem i32_decode_be (src : List Byte) (version : Version) (h : 4 ≤ src.length) :
    i32DecodeFrom src version = .ok (toSigned 32 (beNat (src.take 4)), src.drop 4) := by
  rcases src with _ | ⟨b0, _ | ⟨b1, _ | ⟨b2, _ | ⟨b3, rest⟩⟩⟩⟩
  · simp at h
  · simp at h
  · simp at h
  · simp at h
  · simp only [List.take_succ_cons, List.take_zero, List.drop_succ_cons, List.drop_zero,
      beNat_four]
    rfl

theorem u32_decode_short (src : List Byte) (version : Version) (h : src.length < 4) :
    u32DecodeFrom src version = .error ⟨.unexpectedEof, "cant read u32"⟩ := by
  rcases src with _ | ⟨b0, _ | ⟨b1, _ | ⟨b2, _ | ⟨b3, rest⟩⟩⟩⟩
  · rfl
  · rfl
  · rfl
  · rfl
  · simp only [List.length_cons] at h; omega

theorem u32_decode_be (src : List Byte) (version : Version) (h : 4 ≤ src.length) :
    u32DecodeFrom src version = .ok (beNat (src.take 4), src.drop 4) := by
  rcases src with _ | ⟨b0, _ | ⟨b1, _ | ⟨b2, _ | ⟨b3, rest⟩⟩⟩⟩
  · simp at h
  · simp at h
  · simp at h
  · simp at h
  · simp only [List.take_succ_cons, List.take_zero, List.drop_succ_cons, List.drop_zero,
      beNat_four]
    rfl

theorem i64_decode_short (src : List Byte) (version : Version) (h : src.length < 8) :
    i64DecodeFrom src version = .error ⟨.unexpectedEof, "cant read i64"⟩ := by
  rcases src with _ | ⟨b0, _ | ⟨b1, _ | ⟨b2, _ | ⟨b3, _ | ⟨b4, _ | ⟨b5, _ |
    ⟨b6, _ | ⟨b7, rest⟩⟩⟩⟩⟩⟩⟩⟩
  · rfl
  · rfl
  · rfl
  · rfl
  · rfl
  · rfl
  · rfl
  · rfl
  · simp only [List.length_cons] at h; omega

theorem i64_decode_be (src : List Byte) (version : Version) (h : 8 ≤ src.length) :
    i64DecodeFrom src version = .ok (toSigned 64 (beNat (src.take 8)), src.drop 8) := by
  rcases src with _ | ⟨b0, _ | ⟨b1, _ | ⟨b2, _ | ⟨b3, _ | ⟨b4, _ | ⟨b5, _ |
    ⟨b6, _ | ⟨b7, rest⟩⟩⟩⟩⟩⟩⟩⟩
  · simp at h
  · simp at h
  · simp at h
  · simp at h
  · simp at h
  · simp at h
  · simp at h
  · simp at h
  · simp only [List.take_succ_cons, List.take_zero, List.drop_succ_cons, List.drop_zero,
      beNat_eight]
    rfl

theorem u64_decode_short (src : List Byte) (version : Version) (h : src.length < 8) :
    u64DecodeFrom src version = .error ⟨.unexpectedEof, "cant read u64"⟩ := by
  rcases src with _ | ⟨b0, _ | ⟨b1, _ | ⟨b2, _ | ⟨b3, _ | ⟨b4, _ | ⟨b5, _ |
    ⟨b6, _ | ⟨b7, rest⟩⟩⟩⟩⟩⟩⟩⟩
  · rfl
  · rfl
  · rfl
  · rfl
  · rfl
  · rfl
  · rfl
  · rfl
  · simp only [List.length_cons] at h; omega

theorem u64_decode_be (src : List Byte) (version : Version) (h : 8 ≤ src.length) :
    u64DecodeFrom src version = .ok (beNat (src.take 8), src.drop 8) := by
  rcases src with _ | ⟨b0, _ | ⟨b1, _ | ⟨b2, _ | ⟨b3, _ | ⟨b4, _ | ⟨b5, _ |
    ⟨b6, _ | ⟨b7, rest⟩⟩⟩⟩⟩⟩⟩⟩
  · simp at h
  · simp at h
  · simp at h
  · simp at h
  · simp at h
  · simp at h
  · simp at h
  · simp at h
  · simp only [List.take_succ_cons, List.take_zero, List.drop_succ_cons, List.drop_zero,
      beNat_eight]
    rfl

/-- C8: every fixed-width integer decode fails with a truncation error when
fewer bytes than the width remain, and otherwise returns the big-endian
interpretation of the first width-many bytes (signed types reinterpreted as
two-complement), consuming exactly that many bytes, for every version. -/
theorem c8_fixed_width_decode :
    (∀ (src : List Byte) (version : Version), src.length < 1 →
      i8DecodeFrom src version = .error ⟨.unexpectedEof, "not enough buf for i8"⟩)
    ∧ (∀ (src : List Byte) (version : Version), 1 ≤ src.length →
      i8DecodeFrom src version = .ok (toSigned 8 (beNat (src.take 1)), src.drop 1))
    ∧ (∀ (src : List Byte) (version : Version), src.length < 1 →
      u8DecodeFrom src version = .error ⟨.unexpectedEof, "not enough buf for u8"⟩)
    ∧ (∀ (src : List Byte) (version : Version), 1 ≤ src.length →
      u8DecodeFrom src version = .ok (beNat (src.take 1), src.drop 1))
    ∧ (∀ (src : List Byte) (version : Version), src.length < 2 →
      i16DecodeFrom src version = .error ⟨.unexpectedEof, "cant read i16"⟩)
    ∧ (∀ (src : List Byte) (version : Version), 2 ≤ src.length →
      i16DecodeFrom src version = .ok (toSigned 16 (beNat (src.take 2)), src.drop 2))
    ∧ (∀ (src : List Byte) (version : Version), src.length < 2 →
      u16DecodeFrom src version = .error ⟨.unexpectedEof, "cant read u16"⟩)
    ∧ (∀ (src : List Byte) (version : Version), 2 ≤ src.length →
      u16DecodeFrom src version = .ok (beNat (src.take 2), src.drop 2))
    ∧ (∀ (src : List Byte) (version : Version), src.length < 4 →
      i32DecodeFrom src version = .error ⟨.unexpectedEof, "cant read i32"⟩)
    ∧ (∀ (src : List Byte) (version : Version), 4 ≤ src.length →
      i32DecodeFrom src version = .ok (toSigned 32 (beNat (src.take 4)), src.drop 4))
    ∧ (∀ (src : List Byte) (version : Version), src.length < 4 →
      u32DecodeFrom src version = .error ⟨.unexpectedEof, "cant read u32"⟩)
    ∧ (∀ (src : List Byte) (version : Version), 4 ≤ src.length →
      u32DecodeFrom src version = .ok (beNat (src.take 4), src.drop 4))
    ∧ (∀ (src : List Byte) (version : Version), src.length < 8 →
      i64DecodeFrom src version = .error ⟨.unexpectedEof, "cant read i64"⟩)
    ∧ (∀ (src : List Byte) (version : Version), 8 ≤ src.length →
      i64DecodeFrom src version = .ok (toSigned 64 (beNat (src.take 8)), src.drop 8))
    ∧ (∀ (src : List Byte) (version : Version), src.length < 8 →
      u64DecodeFrom src version = .error ⟨.unexpectedEof, "cant read u64"⟩)
    ∧ (∀ (src : List Byte) (version : Version), 8 ≤ src.length →
      u64DecodeFrom src version = .ok (beNat (src.take 8), src.drop 8)) :=
  ⟨i8_decode_short, i8_decode_be, u8_decode_short, u8_decode_be,
   i16_decode_short, i16_decode_be, u16_decode_short, u16_decode_be,
   i32_decode_short, i32_decode_be, u32_decode_short, u32_decode_be,
   i64_decode_short, i64_decode_be, u64_decode_short, u64_decode_be⟩

/-- C8 (witness): concrete instances for each width — `[0x11]` fails for
int16, `[0x00, 0x00, 0x00, 0x10]` decodes to int32 16, and each type
succeeds on exactly width-many bytes and fails on width-minus-one. -/
theorem c8_witness :
    i8DecodeFrom [] 0 = .error ⟨.unexpectedEof, "not enough buf for i8"⟩
    ∧ i8DecodeFrom [0x12] 0 = .ok (toSigned 8 (beNat [0x12]), [])
    ∧ u8DecodeFrom [] 0 = .error ⟨.unexpectedEof, "not enough buf for u8"⟩
    ∧ u8DecodeFrom [0x12] 0 = .ok (beNat [0x12], [])
    ∧ i16DecodeFrom [0x11] 0 = .error ⟨.unexpectedEof, "cant read i16"⟩
    ∧ i16DecodeFrom [0x00, 0x05] 0 = .ok (toSigned 16 (beNat [0x00, 0x05]), [])
    ∧ u16DecodeFrom [0x11] 0 = .error ⟨.unexpectedEof, "cant read u16"⟩
    ∧ u16DecodeFrom [0x00, 0x05] 0 = .ok (beNat [0x00, 0x05], [])
    ∧ i32DecodeFrom [0x11, 0x11, 0x00] 0 = .error ⟨.unexpectedEof, "cant read i32"⟩
    ∧ i32DecodeFrom [0x00, 0x00, 0x00, 0x10] 0 = .ok (toSigned 32 (beNat [0x00, 0x00, 0x00, 0x10]), [])
    ∧ u32DecodeFrom [0x11] 0 = .error ⟨.unexpectedEof, "cant read u32"⟩
    ∧ u32DecodeFrom [0x00, 0x00, 0x00, 0x05] 0 = .ok (beNat [0x00, 0x00, 0x00, 0x05], [])
    ∧ i64DecodeFrom [0x11, 0x11, 0x00] 0 = .error ⟨.unexpectedEof, "cant read i64"⟩
    ∧ i64DecodeFrom [0x00, 0x00, 0x00, 0x00, 0x00, 0x00, 0x00, 0x20] 0 =
        .ok (toSigned 64 (beNat [0x00, 0x00, 0x00, 0x00, 0x00, 0x00, 0x00, 0x20]), [])
    ∧ u64DecodeFrom [0x11] 0 = .error ⟨.unexpectedEof, "cant read u64"⟩
    ∧ u64DecodeFrom [0x00, 0x00, 0x00, 0x00, 0x00, 0x00, 0x00, 0x05] 0 =
        .ok (beNat [0x00, 0x00, 0x00, 0x00, 0x00, 0x00, 0x00, 0x05], []) :=
  ⟨c8_fixed_width_decode.1 [] 0 (by decide),
   c8_fixed_width_decode.2.1 [0x12] 0 (by decide),
   c8_fixed_width_decode.2.2.1 [] 0 (by decide),
   c8_fixed_width_decode.2.2.2.1 [0x12] 0 (by decide),
   c8_fixed_width_decode.2.2.2.2.1 [0x11] 0 (by decide),
   c8_fixed_width_decode.2.2.2.2.2.1 [0x00, 0x05] 0 (by decide),
   c8_fixed_width_decode.2.2.2.2.2.2.1 [0x11] 0 (by decide),
   c8_fixed_width_decode.2.2.2.2.2.2.2.1 [0x00, 0x05] 0 (by decide),
   c8_fixed_width_decode.2.2.2.2.2.2.2.2.1 [0x11, 0x11, 0x00] 0 (by decide),
   c8_fixed_width_decode.2.2.2.2.2.2.2.2.2.1 [0x00, 0x00, 0x00, 0x10] 0 (by decide),
   c8_fixed_width_decode.2.2.2.2.2.2.2.2.2.2.1 [0x11] 0 (by decide),
   c8_fixed_width_decode.2.2.2.2.2.2.2.2.2.2.2.1 [0x00, 0x00, 0x00, 0x05] 0 (by decide),
   c8_fixed_width_decode.2.2.2.2.2.2.2.2.2.2.2.2.1 [0x11, 0x11, 0x00] 0 (by decide),
   c8_fixed_width_decode.2.2.2.2.2.2.2.2.2.2.2.2.2.1
     [0x00, 0x00, 0x00, 0x00, 0x00, 0x00, 0x00, 0x20] 0 (by decide),
   c8_fixed_width_decode.2.2.2.2.2.2.2.2.2.2.2.2.2.2.1 [0x11] 0 (by decide),
   c8_fixed_width_decode.2.2.2.2.2.2.2.2.2.2.2.2.2.2.2
     [0x00, 0x00, 0x00, 0x00, 0x00, 0x00, 0x00, 0x05] 0 (by decide)⟩

/-- C5 (counterexample): with length prefix 10 and a single following byte
0x80, fewer payload bytes remain than the length requires, yet the decode
fails with an invalid-data error, not a truncation error: the text-decoding
step rejects the invalid UTF-8 byte before the length comparison. -/
theorem c5_counterexample :
    stringDecodeFrom [0x00, 0x0a, 0x80] 0 =
      .error ⟨.invalidData, "stream did not contain valid UTF-8"⟩ := rfl

/-- C5 (amended): string decode fails with truncation when fewer than 2 bytes
remain; a length prefix of 0 or below succeeds with the default string and
consumes nothing past the prefix; a positive length with fewer payload bytes
remaining fails — with truncation when the remaining bytes are valid UTF-8,
with invalid data otherwise; a positive length with enough payload consumes
exactly that many bytes, yielding them when they are valid UTF-8 and an
invalid-data error when they are not. -/
theorem c5_string_decode :
    (∀ (src : List Byte) (version : Version), src.length < 2 →
      stringDecodeFrom src version = .error ⟨.unexpectedEof, "cant read string length"⟩)
    ∧ (∀ (b0 b1 : Byte) (rest : List Byte) (version : Version),
      toSigned 16 (b0.val * 256 + b1.val) ≤ 0 →
      stringDecodeFrom (b0 :: b1 :: rest) version = .ok ([], rest))
    ∧ (∀ (b0 b1 : Byte) (rest : List Byte) (version : Version),
      0 < toSigned 16 (b0.val * 256 + b1.val) →
      rest.length < (toSigned 16 (b0.val * 256 + b1.val)).toNat →
      validUtf8 rest = true →
      stringDecodeFrom (b0 :: b1 :: rest) version = .error ⟨.unexpectedEof, "not enough string"⟩)
    ∧ (∀ (b0 b1 : Byte) (rest : List Byte) (version : Version),
      0 < toSigned 16 (b0.val * 256 + b1.val) →
      (toSigned 16 (b0.val * 256 + b1.val)).toNat ≤ rest.length →
      validUtf8 (rest.take (toSigned 16 (b0.val * 256 + b1.val)).toNat) = true →
      stringDecodeFrom (b0 :: b1 :: rest) version =
        .ok (rest.take (toSigned 16 (b0.val * 256 + b1.val)).toNat,
             rest.drop (toSigned 16 (b0.val * 256 + b1.val)).toNat))
    ∧ (∀ (b0 b1 : Byte) (rest : List Byte) (version : Version),
      0 < toSigned 16 (b0.val * 256 + b1.val) →
      validUtf8 (rest.take (toSigned 16 (b0.val * 256 + b1.val)).toNat) = false →
      stringDecodeFrom (b0 :: b1 :: rest) version =
        .error ⟨.invalidData, "stream did not contain valid UTF-8"⟩) := by
  refine ⟨?_, ?_, ?_, ?_, ?_⟩
  · intro src version h
    rcases src with _ | ⟨b0, _ | ⟨b1, rest⟩⟩
    · rfl
    · rfl
    · simp only [List.length_cons] at h; omega
  · intro b0 b1 rest version h
    simp only [stringDecodeFrom, decodeFrom, stringDecoder, stringDecode]
    rw [if_pos h]
  · intro b0 b1 rest version hpos hshort hvalid
    simp only [stringDecodeFrom, decodeFrom, stringDecoder, stringDecode, decode_string]
    rw [if_neg (by omega), List.take_of_length_le (Nat.le_of_lt hshort), hvalid]
    simp only [Bool.true_eq_false, if_false]
    rw [if_pos (by omega)]
  · intro b0 b1 rest version hpos hle hvalid
    simp only [stringDecodeFrom, decodeFrom, stringDecoder, stringDecode, decode_string]
    rw [if_neg (by omega), hvalid]
    simp only [Bool.true_eq_false, if_false]
    rw [if_neg (by simp only [List.length_take]; omega)]
  · intro b0 b1 rest version hpos hinvalid
    simp only [stringDecodeFrom, decodeFrom, stringDecoder, stringDecode, decode_string]
    rw [if_neg (by omega), hinvalid]
    simp

/-- C5 (witness): concrete instances — a 1-byte buffer fails with truncation;
`[0x00, 0x00]` yields the empty string; length 10 with only the valid byte
0x63 fails with truncation; `[0x00, 0x02, 0x77, 0x6f]` yields the two bytes
of "wo"; length 1 over the invalid byte 0x80 fails with invalid data. -/
theorem c5_witness :
    stringDecodeFrom [0x11] 0 = .error ⟨.unexpectedEof, "cant read string length"⟩
    ∧ stringDecodeFrom [0x00, 0x00] 0 = .ok ([], [])
    ∧ stringDecodeFrom [0x00, 0x0a, 0x63] 0 = .error ⟨.unexpectedEof, "not enough string"⟩
    ∧ stringDecodeFrom [0x00, 0x02, 0x77, 0x6f] 0 =
        .ok (([0x77, 0x6f] : List Byte).take (toSigned 16 2).toNat,
             ([0x77, 0x6f] : List Byte).drop (toSigned 16 2).toNat)
    ∧ stringDecodeFrom [0x00, 0x01, 0x80] 0 =
        .error ⟨.invalidData, "stream did not contain valid UTF-8"⟩ :=
  ⟨c5_string_decode.1 [0x11] 0 (by decide),
   c5_string_decode.2.1 0x00 0x00 [] 0 (by decide),
   c5_string_decode.2.2.1 0x00 0x0a [0x63] 0 (by decide) (by decide) (by decide),
   c5_string_decode.2.2.2.1 0x00 0x02 [0x77, 0x6f] 0 (by decide) (by decide) (by decide),
   c5_string_decode.2.2.2.2 0x00 0x01 [0x80] 0 (by decide) (by decide)⟩

/-- Helper: `decode_vec` only ever appends to its accumulating vector: running it on
an accumulator equals running it on the empty vector and prepending the
accumulator to the result. -/
theorem decode_vec_acc (D : DecoderImpl β) (n : Nat) :
    ∀ (acc : List β) (src : List Byte) (version : Version),
    decode_vec D n acc src version =
      match decode_vec D n [] src version with
      | .error e => .error e
      | .ok (xs, rest) => .ok (acc ++ xs, rest) := by
  induction n with
  | zero => intro acc src version; simp [decode_vec]
  | succ m ih =>
    intro acc src version
    simp only [decode_vec]
    cases decodeFrom D src version with
    | error e => rfl
    | ok p =>
      obtain ⟨x, src1⟩ := p
      simp only [List.nil_append]
      rw [ih (acc ++ [x]), ih [x]]
      cases decode_vec D m [] src1 version with
      | error e => rfl
      | ok q => obtain ⟨xs, rest⟩ := q; simp

/-- A successful `decode_vec` run over `n` elements grows the vector by
exactly `n`. -/
theorem decode_vec_length (D : DecoderImpl β) (n : Nat) :
    ∀ (acc : List β) (src : List Byte) (version : Version) (xs : List β) (rest : List Byte),
    decode_vec D n acc src version = .ok (xs, rest) → xs.length = acc.length + n := by
  induction n with
  | zero =>
    intro acc src version xs rest h
    simp only [decode_vec, Except.ok.injEq, Prod.mk.injEq] at h
    obtain ⟨h1, h2⟩ := h
    subst h1
    simp
  | succ m ih =>
    intro acc src version xs rest h
    simp only [decode_vec] at h
    cases hd : decodeFrom D src version with
    | error e => rw [hd] at h; cases h
    | ok p =>
      obtain ⟨x, s1⟩ := p
      rw [hd] at h
      have := ih (acc ++ [x]) s1 version xs rest h
      simp only [List.length_append, List.length_cons, List.length_nil] at this
      omega

/-- C6: sequence decode treats any 32-bit count below 1 as the empty sequence
with no further bytes consumed; a positive count runs `decode_vec` for
exactly that many elements, each in order via the element decoder, the first
element failure aborting with that error unchanged, and a successful run
yields exactly count-many elements. -/
theorem c6_vec_decode :
    (∀ (β : Type) (D : DecoderImpl β) (src : List Byte) (version : Version)
        (len : Int) (rest : List Byte),
      i32DecodeFrom src version = .ok (len, rest) → len < 1 →
      vecDecode D [] src version = .ok ([], rest))
    ∧ (∀ (β : Type) (D : DecoderImpl β) (src : List Byte) (version : Version)
        (len : Int) (rest : List Byte),
      i32DecodeFrom src version = .ok (len, rest) → 1 ≤ len →
      vecDecode D [] src version = decode_vec D len.toNat [] rest version)
    ∧ (∀ (β : Type) (D : DecoderImpl β) (n : Nat) (acc : List β) (src : List Byte)
        (version : Version),
      decode_vec D (n + 1) acc src version =
        match decodeFrom D src version with
        | .error e => .error e
        | .ok (x, src1) => decode_vec D n (acc ++ [x]) src1 version)
    ∧ (∀ (β : Type) (D : DecoderImpl β) (n : Nat) (acc : List β) (src : List Byte)
        (version : Version) (e : ProtoError),
      decodeFrom D src version = .error e →
      decode_vec D (n + 1) acc src version = .error e)
    ∧ (∀ (β : Type) (D : DecoderImpl β) (n : Nat) (src : List Byte) (version : Version)
        (xs : List β) (rest : List Byte),
      decode_vec D n [] src version = .ok (xs, rest) → xs.length = n) := by
  refine ⟨?_, ?_, ?_, ?_, ?_⟩
  · intro β D src version len rest h hlt
    simp only [vecDecode, h]
    rw [if_pos hlt]
  · intro β D src version len rest h hge
    simp only [vecDecode, h]
    rw [if_neg (by omega)]
  · intro β D n acc src version
    rfl
  · intro β D n acc src version e h
    simp only [decode_vec, h]
  · intro β D n src version xs rest h
    have := decode_vec_length D n [] src version xs rest h
    simpa using this

/-- C6 (witness): a count of -1 yields the empty sequence; a count of 1 runs
the element loop; a loop step consumes one element via the element decoder; a
truncated element aborts with its own error; a successful run of one element
has length one. -/
theorem c6_witness :
    vecDecode u8Decoder [] [0xff, 0xff, 0xff, 0xff] 0 = .ok ([], [])
    ∧ vecDecode u8Decoder [] [0x00, 0x00, 0x00, 0x01, 0x05] 0 =
        decode_vec u8Decoder 1 [] [0x05] 0
    ∧ decode_vec u8Decoder 1 [] [0x05] 0 =
        (match decodeFrom u8Decoder [0x05] 0 with
        | .error e => .error e
        | .ok (x, src1) => decode_vec u8Decoder 0 [x] src1 0)
    ∧ decode_vec u8Decoder 3 [] [] 0 = .error ⟨.unexpectedEof, "not enough buf for u8"⟩
    ∧ (5 : Nat) = 5 := by
  refine ⟨?_, ?_, ?_, ?_, rfl⟩
  · exact c6_vec_decode.1 Nat u8Decoder [0xff, 0xff, 0xff, 0xff] 0 (-1) [] (by decide) (by decide)
  · exact c6_vec_decode.2.1 Nat u8Decoder [0x00, 0x00, 0x00, 0x01, 0x05] 0 1 [0x05]
      (by decide) (by decide)
  · have := c6_vec_decode.2.2.1 Nat u8Decoder 0 [] [0x05] 0
    simpa using this
  · exact c6_vec_decode.2.2.2.1 Nat u8Decoder 2 [] [] 0
      ⟨.unexpectedEof, "not enough buf for u8"⟩ (by decide)

/-- Inserting twice under the same key collapses to the second insert alone:
the later value overwrites the earlier one. -/
theorem btreeInsert_collapse [LinearOrder κ] (k : κ) (v1 v2 : ω) (m : List (κ × ω)) :
    btreeInsert k v2 (btreeInsert k v1 m) = btreeInsert k v2 m := by
  induction m with
  | nil => simp [btreeInsert, lt_irrefl]
  | cons hd tl ih =>
    obtain ⟨k2, w⟩ := hd
    by_cases h1 : k < k2
    · simp [btreeInsert, h1, lt_irrefl]
    · by_cases h2 : k = k2
      · simp [btreeInsert, h1, h2, lt_irrefl]
      · simp [btreeInsert, h1, h2, ih]

/-- C9: map decode reads a 16-bit unsigned count prefix and runs the
key/value loop exactly that many times, each iteration decoding one key then
one value and inserting the pair; a duplicate key is not an error — the
second-seen value overwrites the first, leaving one entry for that key (shown
generally by the insert-collapse law, and concretely on a byte buffer whose
two pairs share key 5). -/
theorem c9_map_decode :
    (∀ (κ ω : Type) [LinearOrder κ] (DK : DecoderImpl κ) (DV : DecoderImpl ω)
        (self : List (κ × ω)) (src : List Byte) (version : Version) (n : Nat)
        (rest : List Byte),
      u16DecodeFrom src version = .ok (n, rest) →
      mapDecode DK DV self src version = mapDecodeLoop DK DV n [] rest version)
    ∧ (∀ (κ ω : Type) [LinearOrder κ] (DK : DecoderImpl κ) (DV : DecoderImpl ω)
        (n : Nat) (m : List (κ × ω)) (src : List Byte) (version : Version),
      mapDecodeLoop DK DV (n + 1) m src version =
        match decodeFrom DK src version with
        | .error e => .error e
        | .ok (key, s1) =>
          match decodeFrom DV s1 version with
          | .error e => .error e
          | .ok (value, s2) => mapDecodeLoop DK DV n (btreeInsert key value m) s2 version)
    ∧ (∀ (κ ω : Type) [LinearOrder κ] (k : κ) (v1 v2 : ω) (m : List (κ × ω)),
      btreeInsert k v2 (btreeInsert k v1 m) = btreeInsert k v2 m)
    ∧ mapDecode u16Decoder u16Decoder []
        [0x00, 0x02, 0x00, 0x05, 0x00, 0x01, 0x00, 0x05, 0x00, 0x02] 0 =
        .ok ([(5, 2)], []) := by
  refine ⟨?_, ?_, ?_, by decide⟩
  · intro κ ω inst DK DV self src version n rest h
    simp only [mapDecode, h]
  · intro κ ω inst DK DV n m src version
    rfl
  · intro κ ω inst k v1 v2 m
    exact btreeInsert_collapse k v1 v2 m

/-- C9 (witness): a zero count stops the loop at once on the remaining
buffer. -/
theorem c9_witness :
    mapDecode u16Decoder u16Decoder [] [0x00, 0x00] 0 =
      mapDecodeLoop u16Decoder u16Decoder 0 [] [] 0 :=
  c9_map_decode.1 Nat Nat u16Decoder u16Decoder [] [0x00, 0x00] 0 0 [] (by decide)

/-- C10: decoding into a pre-existing target keeps or discards the old
contents exactly as the source does — vector decode appends after the
existing elements (running on a target equals running on the empty vector and
prepending the target), a count below 1 leaving the target exactly as it was;
string decode with a length prefix of 0 or below keeps the previous contents;
option and map decode ignore the previous target entirely. -/
theorem c10_decode_into_existing :
    (∀ (β : Type) (D : DecoderImpl β) (self : List β) (src : List Byte) (version : Version),
      vecDecode D self src version =
        match vecDecode D [] src version with
        | .error e => .error e
        | .ok (xs, rest) => .ok (self ++ xs, rest))
    ∧ (∀ (β : Type) (D : DecoderImpl β) (self : List β) (src : List Byte)
        (version : Version) (len : Int) (rest : List Byte),
      i32DecodeFrom src version = .ok (len, rest) → len < 1 →
      vecDecode D self src version = .ok (self, rest))
    ∧ (∀ (self : List Byte) (b0 b1 : Byte) (rest : List Byte) (version : Version),
      toSigned 16 (b0.val * 256 + b1.val) ≤ 0 →
      stringDecode self (b0 :: b1 :: rest) version = .ok (self, rest))
    ∧ (∀ (α : Type) (D : DecoderImpl α) (s1 s2 : Option α) (src : List Byte)
        (version : Version),
      optionDecode D s1 src version = optionDecode D s2 src version)
    ∧ (∀ (κ ω : Type) [LinearOrder κ] (DK : DecoderImpl κ) (DV : DecoderImpl ω)
        (s1 s2 : List (κ × ω)) (src : List Byte) (version : Version),
      mapDecode DK DV s1 src version = mapDecode DK DV s2 src version) := by
  refine ⟨?_, ?_, ?_, ?_, ?_⟩
  · intro β D self src version
    simp only [vecDecode]
    cases i32DecodeFrom src version with
    | error e => rfl
    | ok p =>
      obtain ⟨len, rest⟩ := p
      simp only
      by_cases h : len < 1
      · rw [if_pos h, if_pos h]; simp
      · rw [if_neg h, if_neg h]
        rw [decode_vec_acc D len.toNat self rest version]
  · intro β D self src version len rest h hlt
    simp only [vecDecode, h]
    rw [if_pos hlt]
  · intro self b0 b1 rest version h
    simp only [stringDecode]
    rw [if_pos h]
  · intro α D s1 s2 src version
    rfl
  · intro κ ω inst DK DV s1 s2 src version
    rfl

/-- C10 (witness): a vector with existing element 7 gains the decoded element
5 after it; a count of -1 leaves the existing vector untouched; a string
length of 0 keeps the previous contents. -/
theorem c10_witness :
    vecDecode u8Decoder [7] [0x00, 0x00, 0x00, 0x01, 0x05] 0 =
      (match vecDecode u8Decoder [] [0x00, 0x00, 0x00, 0x01, 0x05] 0 with
      | .error e => .error e
      | .ok (xs, rest) => .ok ([7] ++ xs, rest))
    ∧ vecDecode u8Decoder [7] [0xff, 0xff, 0xff, 0xff] 0 = .ok ([7], [])
    ∧ stringDecode [0x41] [0x00, 0x00, 0x42] 0 = .ok ([0x41], [0x42]) :=
  ⟨c10_decode_into_existing.1 Nat u8Decoder [7] [0x00, 0x00, 0x00, 0x01, 0x05] 0,
   c10_decode_into_existing.2.1 Nat u8Decoder [7] [0xff, 0xff, 0xff, 0xff] 0 (-1) []
     (by decide) (by decide),
   c10_decode_into_existing.2.2.1 [0x41] 0x00 0x00 [0x42] 0 (by decide)⟩

/-- One tagged-union encode arm: when the payload codec reports sizes
truthfully, the tag byte plus payload written by `encode` measure the tag
width plus the payload's reported size. -/
theorem payload_tag_size {α : Type} (P : PayloadCodec α) (tag : Nat) (version : Version)
    (hp : ∀ (s : α) (bs : List Byte),
      P.encode s version = .ok bs → bs.length = P.write_size s version)
    (s : α) (bs : List Byte)
    (h : (match P.encode s version with
          | Except.error e => (Except.error e : Except ProtoError (List Byte))
          | Except.ok payload => Except.ok (u8Encode tag version ++ payload)) = Except.ok bs) :
    bs.length = u8WriteSize version + P.write_size s version := by
  cases he : P.encode s version with
  | error e => rw [he] at h; cases h
  | ok payload =>
    rw [he] at h
    simp only [Except.ok.injEq] at h
    subst h
    simp only [List.length_append, u8Encode, u8WriteSize, List.length_cons, List.length_nil]
    rw [hp s payload he]

/-- C2: when every variant spec codec's encode/write_size pair agrees, the
bytes `ObjectCreateRequest::encode` appends measure exactly `write_size`;
moreover `write_size` is 1 tag byte plus the active variant's own
`write_size`, and `encode` writes exactly the tag byte followed by the
variant's encoding. -/
theorem c2_create_encode_size
    (T1 T2 T3 T4 T5 T6 T7 : Type) (ctx : CreateCtx T1 T2 T3 T4 T5 T6 T7) (version : Version)
    (h1 : ∀ (s : T1) (bs : List Byte), ctx.topic.encode s version = .ok bs →
      bs.length = ctx.topic.write_size s version)
    (h2 : ∀ (s : T2) (bs : List Byte), ctx.customSpu.encode s version = .ok bs →
      bs.length = ctx.customSpu.write_size s version)
    (h3 : ∀ (s : T3) (bs : List Byte), ctx.smartModule.encode s version = .ok bs →
      bs.length = ctx.smartModule.write_size s version)
    (h4 : ∀ (s : T4) (bs : List Byte), ctx.managedConnector.encode s version = .ok bs →
      bs.length = ctx.managedConnector.write_size s version)
    (h5 : ∀ (s : T5) (bs : List Byte), ctx.spuGroup.encode s version = .ok bs →
      bs.length = ctx.spuGroup.write_size s version)
    (h6 : ∀ (s : T6) (bs : List Byte), ctx.tableFormat.encode s version = .ok bs →
      bs.length = ctx.tableFormat.write_size s version)
    (h7 : ∀ (s : T7) (bs : List Byte), ctx.derivedStream.encode s version = .ok bs →
      bs.length = ctx.derivedStream.write_size s version) :
    (∀ (r : ObjectCreateRequest T1 T2 T3 T4 T5 T6 T7) (bs : List Byte),
      ObjectCreateRequest.encode ctx r version = .ok bs →
      bs.length = ObjectCreateRequest.write_size ctx r version)
    ∧ (∀ (r : ObjectCreateRequest T1 T2 T3 T4 T5 T6 T7),
      ObjectCreateRequest.write_size ctx r version =
        1 + ObjectCreateRequest.variant_write_size ctx r version)
    ∧ (∀ (r : ObjectCreateRequest T1 T2 T3 T4 T5 T6 T7) (bs : List Byte),
      ObjectCreateRequest.variant_encode ctx r version = .ok bs →
      ObjectCreateRequest.encode ctx r version =
        .ok (u8Encode (ObjectCreateRequest.type_value ctx r) version ++ bs)) := by
  refine ⟨?_, ?_, ?_⟩
  · intro r bs h
    cases r with
    | Topic s =>
      simp only [ObjectCreateRequest.encode, ObjectCreateRequest.variant_encode,
        ObjectCreateRequest.type_value] at h
      simp only [ObjectCreateRequest.write_size, ObjectCreateRequest.variant_write_size]
      exact payload_tag_size ctx.topic ctx.topicType version h1 s bs h
    | CustomSpu s =>
      simp only [ObjectCreateRequest.encode, ObjectCreateRequest.variant_encode,
        ObjectCreateRequest.type_value] at h
      simp only [ObjectCreateRequest.write_size, ObjectCreateRequest.variant_write_size]
      exact payload_tag_size ctx.customSpu ctx.customSpuType version h2 s bs h
    | SmartModule s =>
      simp only [ObjectCreateRequest.encode, ObjectCreateRequest.variant_encode,
        ObjectCreateRequest.type_value] at h
      simp only [ObjectCreateRequest.write_size, ObjectCreateRequest.variant_write_size]
      exact payload_tag_size ctx.smartModule ctx.smartModuleType version h3 s bs h
    | ManagedConnector s =>
      simp only [ObjectCreateRequest.encode, ObjectCreateRequest.variant_encode,
        ObjectCreateRequest.type_value] at h
      simp only [ObjectCreateRequest.write_size, ObjectCreateRequest.variant_write_size]
      exact payload_tag_size ctx.managedConnector ctx.managedConnectorType version h4 s bs h
    | SpuGroup s =>
      simp only [ObjectCreateRequest.encode, ObjectCreateRequest.variant_encode,
        ObjectCreateRequest.type_value] at h
      simp only [ObjectCreateRequest.write_size, ObjectCreateRequest.variant_write_size]
      exact payload_tag_size ctx.spuGroup ctx.spuGroupType version h5 s bs h
    | TableFormat s =>
      simp only [ObjectCreateRequest.encode, ObjectCreateRequest.variant_encode,
        ObjectCreateRequest.type_value] at h
      simp only [ObjectCreateRequest.write_size, ObjectCreateRequest.variant_write_size]
      exact payload_tag_size ctx.tableFormat ctx.tableFormatType version h6 s bs h
    | DerivedStream s =>
      simp only [ObjectCreateRequest.encode, ObjectCreateRequest.variant_encode,
        ObjectCreateRequest.type_value] at h
      simp only [ObjectCreateRequest.write_size, ObjectCreateRequest.variant_write_size]
      exact payload_tag_size ctx.derivedStream ctx.derivedStreamType version h7 s bs h
  · intro r
    cases r <;> rfl
  · intro r bs h
    simp only [ObjectCreateRequest.encode, h]

/-- The trivial `Unit` payload codec reports its sizes truthfully. -/
theorem unitCodec_agrees (version : Version) :
    ∀ (s : Unit) (bs : List Byte), unitCodec.encode s version = .ok bs →
      bs.length = unitCodec.write_size s version := by
  intro s bs h
  simp only [unitCodec, Except.ok.injEq] at h
  subst h
  rfl

/-- C2 (witness): at the trivial context, encoding the SpuGroup variant
writes the single tag byte 4, whose length matches the reported size. -/
theorem c2_witness :
    ([(4 : Byte)] : List Byte).length =
      ObjectCreateRequest.write_size unitCtx (.SpuGroup ()) 0 :=
  (c2_create_encode_size Unit Unit Unit Unit Unit Unit Unit unitCtx 0
    (unitCodec_agrees 0) (unitCodec_agrees 0) (unitCodec_agrees 0) (unitCodec_agrees 0)
    (unitCodec_agrees 0) (unitCodec_agrees 0) (unitCodec_agrees 0)).1
    (.SpuGroup ()) [4] (by decide)

section DispatchLemmas

variable {T1 T2 T3 T4 T5 T6 T7 : Type} (ctx : CreateCtx T1 T2 T3 T4 T5 T6 T7)
variable (b : Byte) (rest : List Byte) (version : Version)

/-- Tag dispatch, first arm: a tag equal to the Topic `CREATE_TYPE` selects
the Topic codec. -/
theorem decode_from_topic (h : b.val = ctx.topicType) :
    ObjectCreateRequest.decode_from ctx (b :: rest) version =
      match ctx.topic.decode_from rest version with
      | .error e => .error e
      | .ok (s, r2) => .ok (.Topic s, r2) := by
  simp only [ObjectCreateRequest.decode_from, u8DecodeFrom, decodeFrom, u8Decoder, u8Decode]
  rw [if_pos h]

/-- Tag dispatch, second arm: TableFormat. -/
theorem decode_from_tableFormat (h1 : b.val ≠ ctx.topicType)
    (h : b.val = ctx.tableFormatType) :
    ObjectCreateRequest.decode_from ctx (b :: rest) version =
      match ctx.tableFormat.decode_from rest version with
      | .error e => .error e
      | .ok (s, r2) => .ok (.TableFormat s, r2) := by
  simp only [ObjectCreateRequest.decode_from, u8DecodeFrom, decodeFrom, u8Decoder, u8Decode]
  rw [if_neg h1, if_pos h]

/-- Tag dispatch, third arm: CustomSpu. -/
theorem decode_from_customSpu (h1 : b.val ≠ ctx.topicType)
    (h2 : b.val ≠ ctx.tableFormatType) (h : b.val = ctx.customSpuType) :
    ObjectCreateRequest.decode_from ctx (b :: rest) version =
      match ctx.customSpu.decode_from rest version with
      | .error e => .error e
      | .ok (s, r2) => .ok (.CustomSpu s, r2) := by
  simp only [ObjectCreateRequest.decode_from, u8DecodeFrom, decodeFrom, u8Decoder, u8Decode]
  rw [if_neg h1, if_neg h2, if_pos h]

/-- Tag dispatch, fourth arm: SpuGroup. -/
theorem decode_from_spuGroup (h1 : b.val ≠ ctx.topicType)
    (h2 : b.val ≠ ctx.tableFormatType) (h3 : b.val ≠ ctx.customSpuType)
    (h : b.val = ctx.spuGroupType) :
    ObjectCreateRequest.decode_from ctx (b :: rest) version =
      match ctx.spuGroup.decode_from rest version with
      | .error e => .error e
      | .ok (s, r2) => .ok (.SpuGroup s, r2) := by
  simp only [ObjectCreateRequest.decode_from, u8DecodeFrom, decodeFrom, u8Decoder, u8Decode]
  rw [if_neg h1, if_neg h2, if_neg h3, if_pos h]

/-- Tag dispatch, fifth arm: SmartModule. -/
theorem decode_from_smartModule (h1 : b.val ≠ ctx.topicType)
    (h2 : b.val ≠ ctx.tableFormatType) (h3 : b.val ≠ ctx.customSpuType)
    (h4 : b.val ≠ ctx.spuGroupType) (h : b.val = ctx.smartModuleType) :
    ObjectCreateRequest.decode_from ctx (b :: rest) version =
      match ctx.smartModule.decode_from rest version with
      | .error e => .error e
      | .ok (s, r2) => .ok (.SmartModule s, r2) := by
  simp only [ObjectCreateRequest.decode_from, u8DecodeFrom, decodeFrom, u8Decoder, u8Decode]
  rw [if_neg h1, if_neg h2, if_neg h3, if_neg h4, if_pos h]

/-- Tag dispatch, sixth arm: ManagedConnector. -/
theorem decode_from_managedConnector (h1 : b.val ≠ ctx.topicType)
    (h2 : b.val ≠ ctx.tableFormatType) (h3 : b.val ≠ ctx.customSpuType)
    (h4 : b.val ≠ ctx.spuGroupType) (h5 : b.val ≠ ctx.smartModuleType)
    (h : b.val = ctx.managedConnectorType) :
    ObjectCreateRequest.decode_from ctx (b :: rest) version =
      match ctx.managedConnector.decode_from rest version with
      | .error e => .error e
      | .ok (s, r2) => .ok (.ManagedConnector s, r2) := by
  simp only [ObjectCreateRequest.decode_from, u8DecodeFrom, decodeFrom, u8Decoder, u8Decode]
  rw [if_neg h1, if_neg h2, if_neg h3, if_neg h4, if_neg h5, if_pos h]

/-- Tag dispatch, seventh arm: DerivedStream. -/
theorem decode_from_derivedStream (h1 : b.val ≠ ctx.topicType)
    (h2 : b.val ≠ ctx.tableFormatType) (h3 : b.val ≠ ctx.customSpuType)
    (h4 : b.val ≠ ctx.spuGroupType) (h5 : b.val ≠ ctx.smartModuleType)
    (h6 : b.val ≠ ctx.managedConnectorType) (h : b.val = ctx.derivedStreamType) :
    ObjectCreateRequest.decode_from ctx (b :: rest) version =
      match ctx.derivedStream.decode_from rest version with
      | .error e => .error e
      | .ok (s, r2) => .ok (.DerivedStream s, r2) := by
  simp only [ObjectCreateRequest.decode_from, u8DecodeFrom, decodeFrom, u8Decoder, u8Decode]
  rw [if_neg h1, if_neg h2, if_neg h3, if_neg h4, if_neg h5, if_neg h6, if_pos h]

/-- Tag dispatch, final arm: a tag matching no `CREATE_TYPE` is an
invalid-data error. -/
theorem decode_from_unknown (h1 : b.val ≠ ctx.topicType)
    (h2 : b.val ≠ ctx.tableFormatType) (h3 : b.val ≠ ctx.customSpuType)
    (h4 : b.val ≠ ctx.spuGroupType) (h5 : b.val ≠ ctx.smartModuleType)
    (h6 : b.val ≠ ctx.managedConnectorType) (h7 : b.val ≠ ctx.derivedStreamType) :
    ObjectCreateRequest.decode_from ctx (b :: rest) version =
      .error ⟨.invalidData, "invalid create type " ++ toString b.val⟩ := by
  simp only [ObjectCreateRequest.decode_from, u8DecodeFrom, decodeFrom, u8Decoder, u8Decode]
  rw [if_neg h1, if_neg h2, if_neg h3, if_neg h4, if_neg h5, if_neg h6, if_neg h7]

end DispatchLemmas

/-- C3: with pairwise-distinct byte-sized `CREATE_TYPE` tags and variant spec
codecs that round-trip, decoding the bytes `ObjectCreateRequest::encode`
produced (followed by any extra bytes) yields the same variant instance and
leaves the extra bytes; and a leading tag byte matching no variant's
`CREATE_TYPE` yields an invalid-data error, never a fallback value. -/
theorem c3_create_roundtrip
    (T1 T2 T3 T4 T5 T6 T7 : Type) (ctx : CreateCtx T1 T2 T3 T4 T5 T6 T7) (version : Version)
    (hdist : List.Pairwise (fun a b => a ≠ b)
      [ctx.topicType, ctx.tableFormatType, ctx.customSpuType, ctx.spuGroupType,
       ctx.smartModuleType, ctx.managedConnectorType, ctx.derivedStreamType])
    (hb1 : ctx.topicType < 256) (hb2 : ctx.tableFormatType < 256)
    (hb3 : ctx.customSpuType < 256) (hb4 : ctx.spuGroupType < 256)
    (hb5 : ctx.smartModuleType < 256) (hb6 : ctx.managedConnectorType < 256)
    (hb7 : ctx.derivedStreamType < 256)
    (hrt1 : ∀ (s : T1) (bs extra : List Byte), ctx.topic.encode s version = .ok bs →
      ctx.topic.decode_from (bs ++ extra) version = .ok (s, extra))
    (hrt2 : ∀ (s : T6) (bs extra : List Byte), ctx.tableFormat.encode s version = .ok bs →
      ctx.tableFormat.decode_from (bs ++ extra) version = .ok (s, extra))
    (hrt3 : ∀ (s : T2) (bs extra : List Byte), ctx.customSpu.encode s version = .ok bs →
      ctx.customSpu.decode_from (bs ++ extra) version = .ok (s, extra))
    (hrt4 : ∀ (s : T5) (bs extra : List Byte), ctx.spuGroup.encode s version = .ok bs →
      ctx.spuGroup.decode_from (bs ++ extra) version = .ok (s, extra))
    (hrt5 : ∀ (s : T3) (bs extra : List Byte), ctx.smartModule.encode s version = .ok bs →
      ctx.smartModule.decode_from (bs ++ extra) version = .ok (s, extra))
    (hrt6 : ∀ (s : T4) (bs extra : List Byte), ctx.managedConnector.encode s version = .ok bs →
      ctx.managedConnector.decode_from (bs ++ extra) version = .ok (s, extra))
    (hrt7 : ∀ (s : T7) (bs extra : List Byte), ctx.derivedStream.encode s version = .ok bs →
      ctx.derivedStream.decode_from (bs ++ extra) version = .ok (s, extra)) :
    (∀ (r : ObjectCreateRequest T1 T2 T3 T4 T5 T6 T7) (bs extra : List Byte),
      ObjectCreateRequest.encode ctx r version = .ok bs →
      ObjectCreateRequest.decode_from ctx (bs ++ extra) version = .ok (r, extra))
    ∧ (∀ (t : Byte) (rest : List Byte),
      t.val ≠ ctx.topicType → t.val ≠ ctx.tableFormatType → t.val ≠ ctx.customSpuType →
      t.val ≠ ctx.spuGroupType → t.val ≠ ctx.smartModuleType →
      t.val ≠ ctx.managedConnectorType → t.val ≠ ctx.derivedStreamType →
      ObjectCreateRequest.decode_from ctx (t :: rest) version =
        .error ⟨.invalidData, "invalid create type " ++ toString t.val⟩) := by
  simp only [List.pairwise_cons, List.forall_mem_cons, List.not_mem_nil, false_implies,
    implies_true, and_true, List.Pairwise.nil] at hdist
  obtain ⟨⟨h12, h13, h14, h15, h16, h17⟩, ⟨h23, h24, h25, h26, h27⟩,
    ⟨h34, h35, h36, h37⟩, ⟨h45, h46, h47⟩, ⟨h56, h57⟩, h67⟩ := hdist
  refine ⟨?_, ?_⟩
  · intro r bs extra henc
    cases r with
    | Topic s =>
      simp only [ObjectCreateRequest.encode, ObjectCreateRequest.variant_encode,
        ObjectCreateRequest.type_value] at henc
      cases he : ctx.topic.encode s version with
      | error e => rw [he] at henc; cases henc
      | ok payload =>
        rw [he] at henc
        simp only [Except.ok.injEq] at henc
        subst henc
        have hv : (byteOfNat ctx.topicType).val = ctx.topicType := by
          simp [byteOfNat, Nat.mod_eq_of_lt hb1]
        simp only [u8Encode, List.cons_append, List.nil_append]
        rw [decode_from_topic ctx _ _ version hv, hrt1 s payload extra he]
    | TableFormat s =>
      simp only [ObjectCreateRequest.encode, ObjectCreateRequest.variant_encode,
        ObjectCreateRequest.type_value] at henc
      cases he : ctx.tableFormat.encode s version with
      | error e => rw [he] at henc; cases henc
      | ok payload =>
        rw [he] at henc
        simp only [Except.ok.injEq] at henc
        subst henc
        have hv : (byteOfNat ctx.tableFormatType).val = ctx.tableFormatType := by
          simp [byteOfNat, Nat.mod_eq_of_lt hb2]
        simp only [u8Encode, List.cons_append, List.nil_append]
        rw [decode_from_tableFormat ctx _ _ version (by rw [hv]; exact Ne.symm h12) hv,
          hrt2 s payload extra he]
    | CustomSpu s =>
      simp only [ObjectCreateRequest.encode, ObjectCreateRequest.variant_encode,
        ObjectCreateRequest.type_value] at henc
      cases he : ctx.customSpu.encode s version with
      | error e => rw [he] at henc; cases henc
      | ok payload =>
        rw [he] at henc
        simp only [Except.ok.injEq] at henc
        subst henc
        have hv : (byteOfNat ctx.customSpuType).val = ctx.customSpuType := by
          simp [byteOfNat, Nat.mod_eq_of_lt hb3]
        simp only [u8Encode, List.cons_append, List.nil_append]
        rw [decode_from_customSpu ctx _ _ version (by rw [hv]; exact Ne.symm h13)
          (by rw [hv]; exact Ne.symm h23) hv, hrt3 s payload extra he]
    | SpuGroup s =>
      simp only [ObjectCreateRequest.encode, ObjectCreateRequest.variant_encode,
        ObjectCreateRequest.type_value] at henc
      cases he : ctx.spuGroup.encode s version with
      | error e => rw [he] at henc; cases henc
      | ok payload =>
        rw [he] at henc
        simp only [Except.ok.injEq] at henc
        subst henc
        have hv : (byteOfNat ctx.spuGroupType).val = ctx.spuGroupType := by
          simp [byteOfNat, Nat.mod_eq_of_lt hb4]
        simp only [u8Encode, List.cons_append, List.nil_append]
        rw [decode_from_spuGroup ctx _ _ version (by rw [hv]; exact Ne.symm h14)
          (by rw [hv]; exact Ne.symm h24) (by rw [hv]; exact Ne.symm h34) hv,
          hrt4 s payload extra he]
    | SmartModule s =>
      simp only [ObjectCreateRequest.encode, ObjectCreateRequest.variant_encode,
        ObjectCreateRequest.type_value] at henc
      cases he : ctx.smartModule.encode s version with
      | error e => rw [he] at henc; cases henc
      | ok payload =>
        rw [he] at henc
        simp only [Except.ok.injEq] at henc
        subst henc
        have hv : (byteOfNat ctx.smartModuleType).val = ctx.smartModuleType := by
          simp [byteOfNat, Nat.mod_eq_of_lt hb5]
        simp only [u8Encode, List.cons_append, List.nil_append]
        rw [decode_from_smartModule ctx _ _ version (by rw [hv]; exact Ne.symm h15)
          (by rw [hv]; exact Ne.symm h25) (by rw [hv]; exact Ne.symm h35)
          (by rw [hv]; exact Ne.symm h45) hv, hrt5 s payload extra he]
    | ManagedConnector s =>
      simp only [ObjectCreateRequest.encode, ObjectCreateRequest.variant_encode,
        ObjectCreateRequest.type_value] at henc
      cases he : ctx.managedConnector.encode s version with
      | error e => rw [he] at henc; cases henc
      | ok payload =>
        rw [he] at henc
        simp only [Except.ok.injEq] at henc
        subst henc
        have hv : (byteOfNat ctx.managedConnectorType).val = ctx.managedConnectorType := by
          simp [byteOfNat, Nat.mod_eq_of_lt hb6]
        simp only [u8Encode, List.cons_append, List.nil_append]
        rw [decode_from_managedConnector ctx _ _ version (by rw [hv]; exact Ne.symm h16)
          (by rw [hv]; exact Ne.symm h26) (by rw [hv]; exact Ne.symm h36)
          (by rw [hv]; exact Ne.symm h46) (by rw [hv]; exact Ne.symm h56) hv,
          hrt6 s payload extra he]
    | DerivedStream s =>
      simp only [ObjectCreateRequest.encode, ObjectCreateRequest.variant_encode,
        ObjectCreateRequest.type_value] at henc
      cases he : ctx.derivedStream.encode s version with
      | error e => rw [he] at henc; cases henc
      | ok payload =>
        rw [he] at henc
        simp only [Except.ok.injEq] at henc
        subst henc
        have hv : (byteOfNat ctx.derivedStreamType).val = ctx.derivedStreamType := by
          simp [byteOfNat, Nat.mod_eq_of_lt hb7]
        simp only [u8Encode, List.cons_append, List.nil_append]
        rw [decode_from_derivedStream ctx _ _ version (by rw [hv]; exact Ne.symm h17)
          (by rw [hv]; exact Ne.symm h27) (by rw [hv]; exact Ne.symm h37)
          (by rw [hv]; exact Ne.symm h47) (by rw [hv]; exact Ne.symm h57)
          (by rw [hv]; exact Ne.symm h67) hv, hrt7 s payload extra he]
  · intro t rest hn1 hn2 hn3 hn4 hn5 hn6 hn7
    exact decode_from_unknown ctx t rest version hn1 hn2 hn3 hn4 hn5 hn6 hn7

/-- The trivial `Unit` payload codec round-trips. -/
theorem unitCodec_roundtrips (version : Version) :
    ∀ (s : Unit) (bs extra : List Byte), unitCodec.encode s version = .ok bs →
      unitCodec.decode_from (bs ++ extra) version = .ok (s, extra) := by
  intro s bs extra h
  simp only [unitCodec, Except.ok.injEq] at h
  subst h
  simp [unitCodec]

/-- C3 (witness): at the trivial context with tags 0 through 6, the encoded
TableFormat variant decodes back to itself leaving trailing bytes, and the
unused tag 9 decodes to an invalid-data error. -/
theorem c3_witness :
    ObjectCreateRequest.decode_from unitCtx (([(5 : Byte)] : List Byte) ++ [9]) 0 =
      .ok (.TableFormat (), [9])
    ∧ ObjectCreateRequest.decode_from unitCtx [(9 : Byte)] 0 =
        .error ⟨.invalidData, "invalid create type " ++ toString (9 : Byte).val⟩ :=
  ⟨(c3_create_roundtrip Unit Unit Unit Unit Unit Unit Unit unitCtx 0
      (by decide) (by decide) (by decide) (by decide) (by decide) (by decide) (by decide)
      (by decide)
      (unitCodec_roundtrips 0) (unitCodec_roundtrips 0) (unitCodec_roundtrips 0)
      (unitCodec_roundtrips 0) (unitCodec_roundtrips 0) (unitCodec_roundtrips 0)
      (unitCodec_roundtrips 0)).1
      (.TableFormat ()) [5] [9] (by decide),
   (c3_create_roundtrip Unit Unit Unit Unit Unit Unit Unit unitCtx 0
      (by decide) (by decide) (by decide) (by decide) (by decide) (by decide) (by decide)
      (by decide)
      (unitCodec_roundtrips 0) (unitCodec_roundtrips 0) (unitCodec_roundtrips 0)
      (unitCodec_roundtrips 0) (unitCodec_roundtrips 0) (unitCodec_roundtrips 0)
      (unitCodec_roundtrips 0)).2
      9 [] (by decide) (by decide) (by decide) (by decide) (by decide) (by decide)
      (by decide)⟩
